import Mathlib

/-!
Verification of the Natural-Language Query Pipeline and Insight Cache of the
social-campaigns-demo repository, as a shallow embedding in Lean 4.

The embedding covers:
- `MetaLlamaIndexCore._enhance_question_with_table_guidance` (app/llamaindex_core.py)
  as `enhance`;
- `MetaLlamaIndexCore.ask` (app/llamaindex_core.py) as `ask`, with the fallible
  collaborators (lazy retriever initialization, SQL retrieval, the fallback LLM
  completion, SQL execution, and description synthesis) modelled as oracles in a
  `Collab` record: each field carries the outcome of the single call `ask` makes
  to that collaborator, `Except.error` standing for a raised exception;
- the insight cache (`setup_insights_cache`, `get_cached_insight`, `cache_insight`
  in app/scripts/insights_generator.py) over a list-of-rows model of the
  `insights_cache` table;
- the batch driver `generate_all_insights` (app/scripts/insights_generator.py)
  over per-entity generation outcomes;
- `MetaVannaCore.train_on_dbt_models` (app/vanna_core.py) over a list model of
  the Vanna knowledge base.

Python string operations used by the source (`in`, `.lower()`, `.strip()`,
`.split(sep, 1)`, `.startswith`) are given structural-recursion models over
`List Char` so that all definitions compute by kernel reduction.
-/

/-! ## String helpers (models of the Python string operations) -/

/-- Model of list prefix testing, used for the Python substring and
`startswith` operations. -/
def isPrefixOfChars : List Char → List Char → Bool
  | [], _ => true
  | _ :: _, [] => false
  | p :: ps, c :: cs => p == c && isPrefixOfChars ps cs

/-- The Python `needle in hay` substring test on char lists. -/
def containsSub (needle : List Char) : List Char → Bool
  | [] => needle.isEmpty
  | c :: rest => isPrefixOfChars needle (c :: rest) || containsSub needle rest

/-- The Python `term in s` substring test on strings. -/
def strContains (hay needle : String) : Bool :=
  containsSub needle.data hay.data

/-- The Python `s.startswith(p)` test. -/
def strStartsWith (s p : String) : Bool :=
  isPrefixOfChars p.data s.data

/-- The Python `s.lower()` (ASCII case folding, which covers every keyword
the enhancer tests). -/
def pyLower (s : String) : String :=
  ⟨s.data.map Char.toLower⟩

/-- The Python `s.strip()`: drop leading and trailing whitespace. -/
def pyStrip (s : String) : String :=
  ⟨((s.data.dropWhile Char.isWhitespace).reverse.dropWhile Char.isWhitespace).reverse⟩

/-- Split at the first occurrence of `sep`, the Python `s.split(sep, 1)`:
`none` when `sep` does not occur, otherwise the parts before and after the
first occurrence. -/
def splitOnceChars (sep : List Char) : List Char → Option (List Char × List Char)
  | [] => none
  | c :: rest =>
    if isPrefixOfChars sep (c :: rest) then
      some ([], (c :: rest).drop sep.length)
    else
      match splitOnceChars sep rest with
      | some (pre, post) => some (c :: pre, post)
      | none => none

/-- The Python `s.split(sep, 1)` on strings: the part before the first
occurrence of `sep`, and, when `sep` occurs, the part after it. -/
def pySplitOnce (s sep : String) : String × Option String :=
  match splitOnceChars sep.data s.data with
  | some (pre, post) => (⟨pre⟩, some ⟨post⟩)
  | none => (s, none)

/-- A single-quote character, for assembling the templated fallback message. -/
def singleQuote : String := ⟨[Char.ofNat 39]⟩

/-! ## Query Enhancer
(`MetaLlamaIndexCore._enhance_question_with_table_guidance`) -/

/-- Keyword group for time-based analysis questions. -/
def timeTrendTerms : List String := ["month", "trend", "over time", "change", "growth"]

/-- Keyword group for anomaly detection questions. -/
def anomalyTerms : List String := ["anomaly", "unusual", "outlier", "deviation", "abnormal"]

/-- Keyword group for ranking and performance comparison questions. -/
def rankingTerms : List String :=
  ["rank", "ranking", "top", "best", "worst", "compare", "comparison", "performance"]

/-- Keyword group for campaign-level detailed questions. -/
def detailTerms : List String := ["campaign", "specific", "individual", "detail"]

/-- The generator expression `any(term in question_lower for term in terms)`. -/
def containsAnyTerm (hay : String) (terms : List String) : Bool :=
  terms.any (fun t => strContains hay t)

/-- Directive appended for time-based analysis questions (the f-string space
included). -/
def timeDirective : String :=
  " Use the campaign_monthly_metrics table for time-based analysis."

/-- Directive appended for anomaly detection questions. -/
def anomalyDirective : String :=
  " Use the metrics_monthly_anomalies table to identify statistical anomalies."

/-- Directive appended for ranking and performance comparison questions. -/
def rankingDirective : String :=
  " Use the campaign_month_performance_rankings table for aggregating campaigns and their performance."

/-- Directive appended for campaign-level detailed questions. -/
def detailDirective : String :=
  " Use the stg_campaigns table for detailed campaign-level data."

/-- Model of `MetaLlamaIndexCore._enhance_question_with_table_guidance`: lower-case the
question (the source binds `question_lower = question.lower()` once; it is
inlined here), test the four keyword groups in order, and append the first
matching directive; return the question unchanged when no group matches. -/
def enhance (question : String) : String :=
  if containsAnyTerm (pyLower question) timeTrendTerms then
    question ++ timeDirective
  else if containsAnyTerm (pyLower question) anomalyTerms then
    question ++ anomalyDirective
  else if containsAnyTerm (pyLower question) rankingTerms then
    question ++ rankingDirective
  else if containsAnyTerm (pyLower question) detailTerms then
    question ++ detailDirective
  else
    question

theorem string_append_empty (s : String) : s ++ "" = s := by
  cases s with
  | mk data =>
    show String.mk (data ++ []) = String.mk data
    rw [List.append_nil]

/-- C7: The Query Enhancer is a pure function of its input: it lower-cases the
question and tests the keyword groups in the fixed priority order time/trend,
anomaly, ranking/comparison, detail/specific; the first matching group appends
exactly that group directive, a table-naming hint, to the otherwise-unchanged
question, and when no group matches the question is returned unchanged (the
appended hint is `""`). -/
theorem enhance_priority (q : String) :
    (enhance q = q ++
      (if containsAnyTerm (pyLower q) timeTrendTerms then timeDirective
       else if containsAnyTerm (pyLower q) anomalyTerms then anomalyDirective
       else if containsAnyTerm (pyLower q) rankingTerms then rankingDirective
       else if containsAnyTerm (pyLower q) detailTerms then detailDirective
       else ""))
    ∧ (enhance q = q ∨ enhance q = q ++ timeDirective ∨ enhance q = q ++ anomalyDirective
       ∨ enhance q = q ++ rankingDirective ∨ enhance q = q ++ detailDirective) := by
  unfold enhance
  constructor
  · split_ifs <;> simp_all [string_append_empty]
  · split_ifs <;> simp_all

/-! ## The `ask` pipeline (`MetaLlamaIndexCore.ask`)

A result row (one record of `DataFrame.to_dict(orient="records")`) is a list of
column/value pairs; values are kept as strings, which is enough for every
claim (the only value the pipeline itself constructs is the error message in
`[{"error": str(e)}]`). -/

/-- One result row: a column-to-value record. -/
abbrev Row := List (String × String)

/-- The outcomes of the fallible collaborator calls a single `ask` invocation
makes. `Except.error msg` models the call raising an exception with message
`msg`.
- `init`: the lazy `SQLDatabase`/`NLSQLRetriever` initialization block (a no-op
  when already initialized);
- `retrieve`: `nl_sql_retriever.retrieve(enhanced_question)`, returning for
  each retrieved node the optional `sql_query` entry of its metadata;
- `fallbackLLM`: the `Settings.llm.complete(response_prompt)` call of the
  no-SQL fallback block;
- `execute`: `pd.read_sql(sql, connection)` converted to records;
- `synthesize`: the `Settings.llm.complete(analysis_prompt)` call of the
  description step. -/
structure Collab where
  init : Except String Unit
  retrieve : String → Except String (List (Option String))
  fallbackLLM : Except String String
  execute : String → Except String (List Row)
  synthesize : Except String String

/-- The `QueryResponse` dictionary: the four keys every return path of `ask`
populates. -/
structure QueryResponse where
  question : String
  sql : String
  results : List Row
  description : String
deriving DecidableEq

/-- The value of one `ask` call together with its effect on the SQLAlchemy
engine: `disposed` records whether `self.engine.dispose()` ran during the
call. -/
structure AskResult where
  resp : QueryResponse
  disposed : Bool
deriving DecidableEq

/-- The response built by the outer `except` handler of `ask`. -/
def errorResponse (question e : String) : QueryResponse :=
  ⟨question, "", [], "Error: " ++ e⟩

/-- Extraction of the SQL string from the retriever results: the first node
whose metadata has a `sql_query` key wins; no such node leaves `sql = ""`. -/
def extractSql : List (Option String) → String
  | [] => ""
  | none :: rest => extractSql rest
  | some s :: _ => s

/-- Assembly of the fallback message from a successful fallback-LLM completion:
strip the text, split once on the `Joke:` marker, and rejoin main part and joke
with a space when the joke is non-blank. -/
def fallbackJoin (raw : String) : String :=
  match pySplitOnce (pyStrip raw) "Joke:" with
  | (main, none) => pyStrip main
  | (main, some joke) =>
    if pyStrip joke = "" then pyStrip main
    else pyStrip main ++ " " ++ pyStrip joke

/-- The deterministic templated sentence used when the fallback LLM call itself
raises. -/
def templatedFallback (question : String) : String :=
  "Unable to answer about " ++ singleQuote ++ question ++ singleQuote ++
    " based on marketing data. The database only contains campaign metrics and performance data."

/-- The no-SQL fallback block: the LLM text (joke rejoined) on success, the
templated sentence when the LLM call raises. -/
def fallbackMessage (c : Collab) (question : String) : String :=
  match c.fallbackLLM with
  | .ok t => fallbackJoin t
  | .error _ => templatedFallback question

/-- Step 3 of `ask`: execute the SQL; a raised exception is captured as the
single row `[{"error": str(e)}]`. -/
def execResults (c : Collab) (sql : String) : List Row :=
  match c.execute sql with
  | .ok rows => rows
  | .error e => [[("error", e)]]

/-- Step 4 of `ask`: synthesize a description only when there are result rows;
a raised exception degrades to the sentinel string. -/
def synthDescription (c : Collab) (results_data : List Row) : String :=
  if results_data.isEmpty then ""
  else
    match c.synthesize with
    | .ok t => t
    | .error _ => "Error generating description"

/-- Model of `MetaLlamaIndexCore.ask`: enhance the question, initialize the retriever
lazily, retrieve SQL, and then either (no SQL) return the fallback response —
without disposing the engine — or execute, synthesize, dispose the engine and
return; any exception raised by initialization or retrieval is caught by the
outer handler, which disposes the engine and returns an error-described
response. -/
def ask (c : Collab) (question : String) : AskResult :=
  match c.init with
  | .error e => ⟨errorResponse question e, true⟩
  | .ok _ =>
    match c.retrieve (enhance question) with
    | .error e => ⟨errorResponse question e, true⟩
    | .ok nodes =>
      if extractSql nodes = "" then
        ⟨⟨question, "", [], fallbackMessage c question⟩, false⟩
      else
        ⟨⟨question, extractSql nodes, execResults c (extractSql nodes),
          synthDescription c (execResults c (extractSql nodes))⟩, true⟩

theorem isPrefixOfChars_append (p a b : List Char)
    (h : isPrefixOfChars p a = true) : isPrefixOfChars p (a ++ b) = true := by
  induction p generalizing a with
  | nil => simp [isPrefixOfChars]
  | cons x xs ih =>
    cases a with
    | nil => simp [isPrefixOfChars] at h
    | cons y ys =>
      simp only [isPrefixOfChars, Bool.and_eq_true] at h
      simpa [isPrefixOfChars, h.1] using ih ys h.2

theorem data_of_append (a b : String) : (a ++ b).data = a.data ++ b.data := rfl

/-- The templated fallback sentence always opens with the literal framing
`Unable to`. -/
theorem templatedFallback_startsWith (q : String) :
    strStartsWith (templatedFallback q) "Unable to" = true := by
  show isPrefixOfChars ("Unable to").data
    ("Unable to answer about " ++ (singleQuote ++ (q ++ (singleQuote ++
      " based on marketing data. The database only contains campaign metrics and performance data.")))).data = true
  rw [data_of_append]
  exact isPrefixOfChars_append _ _ _ (by decide)

theorem startsWith_unable_ne_empty (s : String)
    (h : strStartsWith s "Unable to" = true) : s ≠ "" := by
  intro he
  rw [he] at h
  exact absurd h (by decide)

/-- C6: `ask` is total at its boundary. For every question and every behavior
of the collaborators — including any of initialization, retrieval, the
fallback LLM, execution, or synthesis raising — `ask` returns a
`QueryResponse` (a structure carrying the keys `question`, `sql`, `results`,
`description`) whose `question` field echoes the input, and the response is
one of the three terminal shapes: the caught-exception response, the no-SQL
fallback response, or the executed response. No path propagates an
exception (`ask` is a total function of the collaborator outcomes). -/
theorem ask_total_boundary (c : Collab) (q : String) :
    (ask c q).resp.question = q ∧
    ((∃ e, (c.init = .error e ∨ c.retrieve (enhance q) = .error e) ∧
        (ask c q).resp = errorResponse q e)
     ∨ (∃ nodes, c.retrieve (enhance q) = .ok nodes ∧ extractSql nodes = "" ∧
        (ask c q).resp = ⟨q, "", [], fallbackMessage c q⟩)
     ∨ (∃ nodes, c.retrieve (enhance q) = .ok nodes ∧ extractSql nodes ≠ "" ∧
        (ask c q).resp = ⟨q, extractSql nodes, execResults c (extractSql nodes),
          synthDescription c (execResults c (extractSql nodes))⟩)) := by
  cases hinit : c.init with
  | error e =>
    refine ⟨?_, .inl ⟨e, .inl rfl, ?_⟩⟩ <;> simp [ask, hinit, errorResponse]
  | ok u =>
    cases hret : c.retrieve (enhance q) with
    | error e =>
      refine ⟨?_, .inl ⟨e, .inr rfl, ?_⟩⟩ <;> simp [ask, hinit, hret, errorResponse]
    | ok nodes =>
      by_cases hsql : extractSql nodes = ""
      · refine ⟨?_, .inr (.inl ⟨nodes, rfl, hsql, ?_⟩)⟩ <;> simp [ask, hinit, hret, hsql]
      · refine ⟨?_, .inr (.inr ⟨nodes, rfl, hsql, ?_⟩)⟩ <;> simp [ask, hinit, hret, hsql]

/-- C10: when retrieval yields a non-empty SQL string and execution succeeds
with zero rows, `ask` returns the SQL, `results = []`, and the empty
description — for every behavior of the synthesis LLM, since the synthesis
step is skipped on an empty result set. The engine is disposed on this path. -/
theorem empty_result_empty_description (c : Collab) (q : String)
    (nodes : List (Option String))
    (hinit : c.init = .ok ())
    (hret : c.retrieve (enhance q) = .ok nodes)
    (hsql : extractSql nodes ≠ "")
    (hexec : c.execute (extractSql nodes) = .ok []) :
    ask c q = ⟨⟨q, extractSql nodes, [], ""⟩, true⟩ := by
  simp [ask, hinit, hret, hsql, execResults, hexec, synthDescription]

/-- Collaborator behavior exercising the zero-row execution path: retrieval
finds SQL, execution returns no rows, and the synthesis oracle holds a marker
text that must not appear in the response. -/
def zeroRowCollab : Collab :=
  { init := .ok ()
  , retrieve := fun _ => .ok [some "SELECT 1 WHERE FALSE"]
  , fallbackLLM := .ok "unused"
  , execute := fun _ => .ok []
  , synthesize := .ok "MARKER: synthesis ran" }

theorem empty_result_empty_description_witness :
    ask zeroRowCollab "list campaigns" =
      ⟨⟨"list campaigns", "SELECT 1 WHERE FALSE", [], ""⟩, true⟩ :=
  empty_result_empty_description zeroRowCollab "list campaigns"
    [some "SELECT 1 WHERE FALSE"] rfl rfl (by decide) rfl

/-- C1 (amended): on the no-SQL retrieval path, `ask` always returns
`sql = ""` and `results = []`; when the fallback LLM call raises, the
description is the deterministic templated sentence, which is non-empty and
starts with `Unable to`; when the fallback LLM call succeeds, the description
is the LLM text after joke-rejoining — the code does not enforce the
`Unable to` opening on it. -/
theorem no_sql_fallback_paths (c : Collab) (q : String)
    (nodes : List (Option String))
    (hinit : c.init = .ok ())
    (hret : c.retrieve (enhance q) = .ok nodes)
    (hsql : extractSql nodes = "") :
    (ask c q).resp.sql = "" ∧ (ask c q).resp.results = [] ∧
    (∀ e, c.fallbackLLM = .error e →
      (ask c q).resp.description = templatedFallback q ∧
      strStartsWith (ask c q).resp.description "Unable to" = true ∧
      (ask c q).resp.description ≠ "") ∧
    (∀ t, c.fallbackLLM = .ok t →
      (ask c q).resp.description = fallbackJoin t) := by
  have hask : ask c q = ⟨⟨q, "", [], fallbackMessage c q⟩, false⟩ := by
    simp [ask, hinit, hret, hsql]
  refine ⟨by rw [hask], by rw [hask], ?_, ?_⟩
  · intro e he
    have hmsg : (ask c q).resp.description = templatedFallback q := by
      rw [hask]; simp [fallbackMessage, he]
    refine ⟨hmsg, ?_, ?_⟩
    · rw [hmsg]; exact templatedFallback_startsWith q
    · rw [hmsg]
      exact startsWith_unable_ne_empty _ (templatedFallback_startsWith q)
  · intro t ht
    rw [hask]; simp [fallbackMessage, ht]

/-- Collaborator behavior with no SQL candidate and a raising fallback LLM. -/
def fallbackRaises : Collab :=
  { init := .ok ()
  , retrieve := fun _ => .ok [none]
  , fallbackLLM := .error "llm unavailable"
  , execute := fun _ => .ok []
  , synthesize := .ok "unused" }

theorem no_sql_fallback_paths_witness :
    (ask fallbackRaises "hi").resp.sql = "" ∧
    (ask fallbackRaises "hi").resp.results = [] ∧
    (ask fallbackRaises "hi").resp.description = templatedFallback "hi" ∧
    strStartsWith (ask fallbackRaises "hi").resp.description "Unable to" = true := by
  have h := no_sql_fallback_paths fallbackRaises "hi" [none] rfl rfl rfl
  exact ⟨h.1, h.2.1, (h.2.2.1 "llm unavailable" rfl).1, (h.2.2.1 "llm unavailable" rfl).2.1⟩

/-- Collaborator behavior with no SQL candidate whose fallback LLM returns a
sentence that does not open with `Unable to`: the code uses the LLM text
verbatim (after joke-rejoining), so the response description does not carry
the promised framing. -/
def fallbackFreeText : Collab :=
  { init := .ok ()
  , retrieve := fun _ => .ok []
  , fallbackLLM := .ok "The marketing data says nothing about the weather."
  , execute := fun _ => .ok []
  , synthesize := .ok "unused" }

/-- C1 counterexample: a question for which retrieval yields no SQL candidate,
where the fallback LLM call returns (does not raise) a text that does not
start with `Unable to`; `ask` returns that text as the description, so the
claimed guarantee over every behavior of the fallback LLM call fails. -/
theorem no_sql_description_not_unable :
    (ask fallbackFreeText "will it rain tomorrow").resp.sql = "" ∧
    (ask fallbackFreeText "will it rain tomorrow").resp.description =
      "The marketing data says nothing about the weather." ∧
    strStartsWith
      (ask fallbackFreeText "will it rain tomorrow").resp.description
      "Unable to" = false := by
  refine ⟨rfl, ?_, ?_⟩ <;> decide

/-- C2 (amended): on every return path of `ask`, `sql = ""` implies
`results = []`. The description carries the `Unable to` fallback framing on
the no-SQL path when the fallback LLM raises; on the caught-exception path
(here: retrieval raising) the description is instead `Error: ` followed by the
exception message, which does not carry the fallback framing. -/
theorem sql_empty_invariant (c : Collab) (q : String) :
    ((ask c q).resp.sql = "" → (ask c q).resp.results = []) ∧
    (∀ e, c.init = .ok () → c.retrieve (enhance q) = .error e →
      (ask c q).resp.description = "Error: " ++ e) ∧
    (∀ nodes e, c.init = .ok () → c.retrieve (enhance q) = .ok nodes →
      extractSql nodes = "" → c.fallbackLLM = .error e →
      strStartsWith (ask c q).resp.description "Unable to" = true) := by
  refine ⟨?_, ?_, ?_⟩
  · intro hsql
    cases hinit : c.init with
    | error e => simp [ask, hinit, errorResponse]
    | ok u =>
      cases hret : c.retrieve (enhance q) with
      | error e => simp [ask, hinit, hret, errorResponse]
      | ok nodes =>
        by_cases he : extractSql nodes = ""
        · simp [ask, hinit, hret, he]
        · rw [show (ask c q).resp.sql = extractSql nodes by
            simp [ask, hinit, hret, he]] at hsql
          exact absurd hsql he
  · intro e hinit hret
    simp [ask, hinit, hret, errorResponse]
  · intro nodes e hinit hret hsql hfb
    have hmsg : (ask c q).resp.description = templatedFallback q := by
      simp [ask, hinit, hret, hsql, fallbackMessage, hfb]
    rw [hmsg]
    exact templatedFallback_startsWith q

/-- Collaborator behavior whose retrieval call raises, driving `ask` through
the caught-exception return path. -/
def retrieveRaises : Collab :=
  { init := .ok ()
  , retrieve := fun _ => .error "boom"
  , fallbackLLM := .ok "unused"
  , execute := fun _ => .ok []
  , synthesize := .ok "unused" }

/-- C2 counterexample: on the caught-exception path `ask` returns `sql = ""`
with a description `Error: boom` that does not start with the `Unable to`
fallback framing, refuting the claimed invariant on that return path. -/
theorem exception_path_description_not_fallback :
    (ask retrieveRaises "hi").resp.sql = "" ∧
    (ask retrieveRaises "hi").resp.description = "Error: boom" ∧
    strStartsWith (ask retrieveRaises "hi").resp.description "Unable to" = false := by
  refine ⟨rfl, ?_, ?_⟩ <;> decide

/-- Collaborator behavior identical to `retrieveRaises` but with a distinct
message, used to instantiate the amended C2 invariant. -/
def retrieveRaisesDown : Collab :=
  { init := .ok ()
  , retrieve := fun _ => .error "connection lost"
  , fallbackLLM := .ok "unused"
  , execute := fun _ => .ok []
  , synthesize := .ok "unused" }

theorem sql_empty_invariant_witness :
    (ask retrieveRaisesDown "hi").resp.results = [] ∧
    (ask retrieveRaisesDown "hi").resp.description = "Error: " ++ "connection lost" := by
  have h := sql_empty_invariant retrieveRaisesDown "hi"
  exact ⟨h.1 rfl, h.2.1 "connection lost" rfl rfl⟩

/-- Collaborator behavior for a question yielding no SQL candidate (empty
retriever node list), with every other collaborator healthy. -/
def noCandidateCollab : Collab :=
  { init := .ok ()
  , retrieve := fun _ => .ok []
  , fallbackLLM := .ok "Unable to answer that from marketing data."
  , execute := fun _ => .ok []
  , synthesize := .ok "unused" }

/-- Collaborator behavior for a fully successful pipeline run: retrieval
finds SQL, execution returns one row, synthesis succeeds. -/
def successPathCollab : Collab :=
  { init := .ok ()
  , retrieve := fun _ => .ok [some "SELECT roi FROM campaign_monthly_metrics"]
  , fallbackLLM := .ok "unused"
  , execute := fun _ => .ok [[("roi", "4.2")]]
  , synthesize := .ok "The ROI is 4.2." }

/-- C4: on the retrieval-empty (no-SQL fallback) path, `ask` returns without
running `self.engine.dispose()` — the engine and its pooled connection are
kept past the call, contradicting the per-call release the code elsewhere
insists on (`Make sure to dispose of the engine even in case of error`). The
successful-execution and caught-exception paths do dispose. -/
theorem fallback_path_keeps_engine :
    (ask noCandidateCollab "blah unrelated nonsense").resp.sql = "" ∧
    (ask noCandidateCollab "blah unrelated nonsense").disposed = false ∧
    (ask successPathCollab "roi by channel").disposed = true ∧
    (ask retrieveRaises "roi by channel").disposed = true := by
  refine ⟨rfl, ?_, ?_, ?_⟩ <;> decide


/-! ## Insight Cache
(`setup_insights_cache`, `get_cached_insight`, `cache_insight` in
app/scripts/insights_generator.py)

The `insights_cache` table — `(company_name, generated_at, insight_text,
insight_type)` with `PRIMARY KEY (company_name)` — is modelled as a list of
rows; timestamps are integers (seconds). -/

/-- One row of the `insights_cache` table. -/
structure CacheRow where
  company_name : String
  generated_at : Int
  insight_text : String
  insight_type : String
deriving DecidableEq

/-- The freshness window `timedelta(hours=24)`, in seconds. -/
def cacheTTL : Int := 24 * 60 * 60

/-- The rows the SQL `WHERE company_name = ?` clause selects. -/
def rowsFor (db : List CacheRow) (company : String) : List CacheRow :=
  db.filter (fun r => decide (r.company_name = company))

/-- The SQL condition `generated_at > now - timedelta(hours=24)`. -/
def isFresh (now : Int) (r : CacheRow) : Bool :=
  decide (now - cacheTTL < r.generated_at)

/-- Model of `get_cached_insight`: select `insight_text` of a row matching the company
whose `generated_at` is within the 24h window; absent otherwise. -/
def get_cached_insight (db : List CacheRow) (now : Int) (company : String) :
    Option String :=
  match db.find? (fun r => decide (r.company_name = company) && isFresh now r) with
  | some r => some r.insight_text
  | none => none

/-- Model of `cache_insight`: count the rows for the company; update them all when any
exist (`UPDATE ... WHERE company_name = ?`), else insert a new row. The key is
the company name alone — `insight_type` is set, not matched on. -/
def cache_insight (db : List CacheRow) (now : Int)
    (company insight_text insight_type : String) : List CacheRow :=
  if 0 < (rowsFor db company).length then
    db.map (fun r =>
      if r.company_name = company then ⟨company, now, insight_text, insight_type⟩ else r)
  else
    db ++ [⟨company, now, insight_text, insight_type⟩]

theorem rowsFor_nil_of_not_pos (db : List CacheRow) (c : String)
    (h : ¬ 0 < (rowsFor db c).length) : rowsFor db c = [] := by
  cases hr : rowsFor db c with
  | nil => rfl
  | cons a l => rw [hr] at h; simp at h

theorem put_mem (db : List CacheRow) (now : Int) (c t ty : String) :
    (⟨c, now, t, ty⟩ : CacheRow) ∈ cache_insight db now c t ty := by
  unfold cache_insight
  split
  · next h0 =>
    have hne : rowsFor db c ≠ [] := by
      intro hnil; rw [hnil] at h0; simp at h0
    obtain ⟨r0, hr0⟩ := List.exists_mem_of_ne_nil _ hne
    have hr0' := List.mem_filter.1 hr0
    refine List.mem_map.2 ⟨r0, hr0'.1, ?_⟩
    rw [if_pos (of_decide_eq_true hr0'.2)]
  · exact List.mem_append_right _ (by simp)

theorem mem_put_company (db : List CacheRow) (now : Int) (c t ty : String)
    (r : CacheRow) (hr : r ∈ cache_insight db now c t ty)
    (hc : r.company_name = c) : r = ⟨c, now, t, ty⟩ := by
  unfold cache_insight at hr
  split at hr
  · obtain ⟨r0, hr0, hmap⟩ := List.mem_map.1 hr
    by_cases hb : r0.company_name = c
    · rw [if_pos hb] at hmap; exact hmap.symm
    · rw [if_neg hb] at hmap
      rw [← hmap] at hc; exact absurd hc hb
  · next h0 =>
    rcases List.mem_append.1 hr with hin | hin
    · have := rowsFor_nil_of_not_pos db c h0
      have hall := List.filter_eq_nil_iff.1 this r hin
      simp [hc] at hall
    · simpa using hin

/-- C5: cache freshness. (1) `get` immediately after `put` returns the stored
text, for any prior cache contents. (2) `get` with the clock advanced by at
least 24h past the `put` returns absent. (3) In general, `get` finds something
iff some row matches the company with `now − generated_at < 24h`. -/
theorem cache_freshness (db : List CacheRow) (now d : Int) (c t ty : String) :
    get_cached_insight (cache_insight db now c t ty) now c = some t ∧
    (cacheTTL ≤ d →
      get_cached_insight (cache_insight db now c t ty) (now + d) c = none) ∧
    ((get_cached_insight db now c).isSome ↔
      ∃ r ∈ db, r.company_name = c ∧ now - r.generated_at < cacheTTL) := by
  have ht : cacheTTL = 86400 := by norm_num [cacheTTL]
  refine ⟨?_, ?_, ?_⟩
  · have hex : ∃ r ∈ cache_insight db now c t ty,
        (decide (r.company_name = c) && isFresh now r) = true := by
      refine ⟨⟨c, now, t, ty⟩, put_mem db now c t ty, ?_⟩
      simp only [Bool.and_eq_true, isFresh, decide_eq_true_eq]
      exact ⟨trivial, by omega⟩
    obtain ⟨r, hfind⟩ := Option.isSome_iff_exists.1 (List.find?_isSome.2 hex)
    have hp := List.find?_some hfind
    have hmem := List.mem_of_find?_eq_some hfind
    have hc : r.company_name = c := by
      simp only [Bool.and_eq_true, decide_eq_true_eq] at hp; exact hp.1
    have := mem_put_company db now c t ty r hmem hc
    simp [get_cached_insight, hfind, this]
  · intro hd
    have hnone : (cache_insight db now c t ty).find?
        (fun r => decide (r.company_name = c) && isFresh (now + d) r) = none := by
      rw [List.find?_eq_none]
      intro r hr
      by_cases hb : r.company_name = c
      · have hrow := mem_put_company db now c t ty r hr hb
        rw [hrow]
        simp only [Bool.and_eq_true, isFresh, decide_eq_true_eq]
        rintro ⟨-, hfr⟩
        omega
      · simp [hb]
    simp [get_cached_insight, hnone]
  · have hiff : (get_cached_insight db now c).isSome =
        (db.find? (fun r => decide (r.company_name = c) && isFresh now r)).isSome := by
      cases hfind : db.find? (fun r => decide (r.company_name = c) && isFresh now r) <;>
        simp [get_cached_insight, hfind]
    rw [hiff, List.find?_isSome]
    constructor
    · rintro ⟨r, hr, hp⟩
      simp only [Bool.and_eq_true, isFresh, decide_eq_true_eq] at hp
      exact ⟨r, hr, hp.1, by omega⟩
    · rintro ⟨r, hr, h1, h2⟩
      refine ⟨r, hr, ?_⟩
      simp only [Bool.and_eq_true, isFresh, decide_eq_true_eq]
      exact ⟨h1, by omega⟩

theorem cache_freshness_witness :
    get_cached_insight (cache_insight [] 0 "Acme" "alpha" "company") 0 "Acme" =
      some "alpha" ∧
    get_cached_insight (cache_insight [] 0 "Acme" "alpha" "company") (0 + 86400)
      "Acme" = none := by
  have h := cache_freshness [] 0 86400 "Acme" "alpha" "company"
  exact ⟨h.1, h.2.1 (by decide)⟩

theorem filter_map_upd (l : List CacheRow) (c : String) (new : CacheRow)
    (hnew : new.company_name = c) :
    (l.map (fun r => if r.company_name = c then new else r)).filter
        (fun r => decide (r.company_name = c)) =
      (l.filter (fun r => decide (r.company_name = c))).map (fun _ => new) := by
  induction l with
  | nil => rfl
  | cons r rest ih =>
    rw [List.map_cons]
    by_cases hb : r.company_name = c
    · rw [if_pos hb,
        List.filter_cons_of_pos (by simp [hnew]),
        List.filter_cons_of_pos (by simp [hb]),
        List.map_cons, ih]
    · rw [if_neg hb,
        List.filter_cons_of_neg (by simp [hb]),
        List.filter_cons_of_neg (by simp [hb]),
        ih]

theorem filter_map_upd_other (l : List CacheRow) (c c' : String)
    (new : CacheRow) (hnew : new.company_name = c) (hne' : ¬ (c = c')) :
    (l.map (fun r => if r.company_name = c then new else r)).filter
        (fun r => decide (r.company_name = c')) =
      l.filter (fun r => decide (r.company_name = c')) := by
  induction l with
  | nil => rfl
  | cons r rest ih =>
    rw [List.map_cons]
    by_cases hb : r.company_name = c
    · rw [if_pos hb,
        List.filter_cons_of_neg (by simp [hnew, hne']),
        List.filter_cons_of_neg (by simp [hb, hne']),
        ih]
    · by_cases hc' : r.company_name = c'
      · rw [if_neg hb, List.filter_cons_of_pos (by simp [hc']),
          List.filter_cons_of_pos (by simp [hc']), ih]
      · rw [if_neg hb, List.filter_cons_of_neg (by simp [hc']),
          List.filter_cons_of_neg (by simp [hc']), ih]

theorem rowsFor_map_upd (db : List CacheRow) (c : String) (new : CacheRow)
    (hnew : new.company_name = c) :
    rowsFor (db.map (fun r => if r.company_name = c then new else r)) c =
      (rowsFor db c).map (fun _ => new) :=
  filter_map_upd db c new hnew

theorem rowsFor_map_upd_other (db : List CacheRow) (c c' : String)
    (new : CacheRow) (hnew : new.company_name = c) (hne : c' ≠ c) :
    rowsFor (db.map (fun r => if r.company_name = c then new else r)) c' =
      rowsFor db c' :=
  filter_map_upd_other db c c' new hnew (fun h => hne h.symm)

theorem rowsFor_put (db : List CacheRow) (now : Int) (c t ty : String)
    (h : (rowsFor db c).length ≤ 1) :
    rowsFor (cache_insight db now c t ty) c = [⟨c, now, t, ty⟩] := by
  unfold cache_insight
  split
  · next h0 =>
    have h1 : (rowsFor db c).length = 1 := le_antisymm h h0
    obtain ⟨r0, hr0⟩ := List.length_eq_one.1 h1
    rw [rowsFor_map_upd db c _ rfl, hr0]
    rfl
  · next h0 =>
    have hnil := rowsFor_nil_of_not_pos db c h0
    unfold rowsFor at hnil ⊢
    rw [List.filter_append, hnil]
    simp

theorem rowsFor_put_other (db : List CacheRow) (now : Int) (c t ty c' : String)
    (hne : c' ≠ c) :
    rowsFor (cache_insight db now c t ty) c' = rowsFor db c' := by
  unfold cache_insight
  split
  · exact rowsFor_map_upd_other db c c' _ rfl hne
  · unfold rowsFor
    rw [List.filter_append]
    have hone : ([(⟨c, now, t, ty⟩ : CacheRow)].filter
        (fun r => decide (r.company_name = c'))) = [] := by
      have : ¬ (c = c') := fun h => hne h.symm
      simp [this]
    rw [hone, List.append_nil]

/-- C3 counterexample: starting from an empty cache, a `put` for entity `Acme`
with `insight_type = company` followed by a `put` for the same entity with the
distinct `insight_type = channel` leaves exactly one row (the second call
overwrites the first), not the two distinct rows the claim asserts: the upsert
is keyed by the entity alone, `insight_type` playing no part in the match. -/
theorem distinct_insight_types_one_row :
    cache_insight (cache_insight [] 0 "Acme" "alpha" "company") 5 "Acme" "beta"
        "channel" = [⟨"Acme", 5, "beta", "channel"⟩] ∧
    (cache_insight (cache_insight [] 0 "Acme" "alpha" "company") 5 "Acme" "beta"
        "channel").length ≠ 2 := by
  refine ⟨?_, ?_⟩ <;> decide

/-- C3 (amended): `put` is a strict upsert keyed by `entity_key`
(`company_name`) alone. When every entity has at most one row, that invariant
is preserved by any `put`; and two consecutive `put` calls for the same entity
— whatever their `insight_type`s, equal or distinct — leave exactly one row for
that entity, carrying the text, timestamp and insight_type of the second call. -/
theorem cache_upsert_by_company (db : List CacheRow) (now1 now2 : Int)
    (c t1 t2 ty1 ty2 : String)
    (hinv : ∀ x, (rowsFor db x).length ≤ 1) :
    (∀ x, (rowsFor (cache_insight db now1 c t1 ty1) x).length ≤ 1) ∧
    rowsFor (cache_insight (cache_insight db now1 c t1 ty1) now2 c t2 ty2) c =
      [⟨c, now2, t2, ty2⟩] := by
  have h1 : rowsFor (cache_insight db now1 c t1 ty1) c = [⟨c, now1, t1, ty1⟩] :=
    rowsFor_put db now1 c t1 ty1 (hinv c)
  refine ⟨?_, ?_⟩
  · intro x
    by_cases hx : x = c
    · rw [hx, h1]; simp
    · rw [rowsFor_put_other db now1 c t1 ty1 x hx]; exact hinv x
  · exact rowsFor_put _ now2 c t2 ty2 (by rw [h1]; simp)

theorem cache_upsert_by_company_witness :
    rowsFor (cache_insight (cache_insight [] 0 "Globex" "a" "company") 7
      "Globex" "b" "channel") "Globex" = [⟨"Globex", 7, "b", "channel"⟩] :=
  (cache_upsert_by_company [] 0 7 "Globex" "a" "b" "company" "channel"
    (fun x => by simp [rowsFor])).2

/-! ## Batch Driver (`generate_all_insights` in
app/scripts/insights_generator.py)

The `generator.generate_insight` call for each entity is modelled by its outcome:
a returned insight text, a returned `None`, or a raised exception. The Python
driver counts a success only when the returned insight is truthy (non-`None`
and non-empty). -/

/-- Outcome of one `generate_insight` call. -/
inductive GenOutcome where
  | insight (text : String)
  | noInsight
  | raised (msg : String)
deriving DecidableEq

/-- The running tallies of the driver: successes, failures, and the names of the
failed companies in order. -/
structure BatchSummary where
  successes : Nat
  failures : Nat
  failed_companies : List String
deriving DecidableEq

/-- One loop iteration of `generate_all_insights`: a truthy insight counts as
a success; a `None` return or a raised exception is caught and recorded as a
failure naming the company. -/
def recordResult (acc : BatchSummary) (entry : String × GenOutcome) :
    BatchSummary :=
  match entry.2 with
  | .insight t =>
    if t = "" then
      ⟨acc.successes, acc.failures + 1, acc.failed_companies ++ [entry.1]⟩
    else
      ⟨acc.successes + 1, acc.failures, acc.failed_companies⟩
  | .noInsight =>
    ⟨acc.successes, acc.failures + 1, acc.failed_companies ++ [entry.1]⟩
  | .raised _ =>
    ⟨acc.successes, acc.failures + 1, acc.failed_companies ++ [entry.1]⟩

/-- Model of `generate_all_insights`: fold the per-company loop over the batch starting
from zero tallies, and return the summary together with the boolean
result `failures == 0`. -/
def generate_all_insights (batch : List (String × GenOutcome)) :
    BatchSummary × Bool :=
  let summary := batch.foldl recordResult ⟨0, 0, []⟩
  (summary, summary.failures == 0)

/-- An entry whose generation call returns a truthy (non-empty) insight. -/
def Succeeds (e : String × GenOutcome) : Prop :=
  ∃ t, e.2 = GenOutcome.insight t ∧ t ≠ ""

theorem foldl_record_of_succeeds (l : List (String × GenOutcome))
    (acc : BatchSummary) (hl : ∀ e ∈ l, Succeeds e) :
    l.foldl recordResult acc =
      ⟨acc.successes + l.length, acc.failures, acc.failed_companies⟩ := by
  induction l generalizing acc with
  | nil => simp
  | cons e rest ih =>
    obtain ⟨t, ht, hne⟩ := hl e (by simp)
    have hrec : recordResult acc e =
        ⟨acc.successes + 1, acc.failures, acc.failed_companies⟩ := by
      simp [recordResult, ht, hne]
    rw [List.foldl_cons, hrec, ih _ (fun x hx => hl x (by simp [hx]))]
    simp
    omega

/-- C9: batch isolation. In a batch where the generation of exactly one entity
raises (every other entity succeeding with a truthy insight), the driver
completes — the fold is total, no exception escapes — and its summary reports
`N − 1` successes and `1` failure naming exactly the failing entity; the
boolean result of the driver is `false`. -/
theorem batch_isolation (pre post : List (String × GenOutcome))
    (c msg : String)
    (hpre : ∀ e ∈ pre, Succeeds e) (hpost : ∀ e ∈ post, Succeeds e) :
    generate_all_insights (pre ++ (c, GenOutcome.raised msg) :: post) =
      (⟨pre.length + post.length, 1, [c]⟩, false) ∧
    (pre ++ (c, GenOutcome.raised msg) :: post).length =
      (pre.length + post.length) + 1 := by
  have hsum : (pre ++ (c, GenOutcome.raised msg) :: post).foldl recordResult
      ⟨0, 0, []⟩ = ⟨pre.length + post.length, 1, [c]⟩ := by
    rw [List.foldl_append, foldl_record_of_succeeds pre _ hpre,
      List.foldl_cons]
    have hstep : recordResult ⟨0 + pre.length, 0, []⟩
        (c, GenOutcome.raised msg) = ⟨pre.length, 1, [c]⟩ := by
      simp [recordResult]
    rw [hstep, foldl_record_of_succeeds post _ hpost]
  refine ⟨?_, by simp; omega⟩
  simp only [generate_all_insights, hsum]
  rfl

theorem batch_isolation_witness :
    generate_all_insights
        [("TechNova", GenOutcome.insight "<p>good</p>"),
         ("Cyber Circuit", GenOutcome.raised "LLM timeout"),
         ("Globex", GenOutcome.insight "<p>fine</p>")] =
      (⟨2, 1, ["Cyber Circuit"]⟩, false) := by
  have h := batch_isolation [("TechNova", GenOutcome.insight "<p>good</p>")]
    [("Globex", GenOutcome.insight "<p>fine</p>")] "Cyber Circuit" "LLM timeout"
    (by rintro e he; simp at he; rw [he]; exact ⟨"<p>good</p>", rfl, by decide⟩)
    (by rintro e he; simp at he; rw [he]; exact ⟨"<p>fine</p>", rfl, by decide⟩)
  simpa using h.1

/-! ## Vanna knowledge base (`MetaVannaCore.train_on_dbt_models` in
app/vanna_core.py)

The knowledge base is a list of training items with identifiers. `train`
first lists the ids of the existing items and removes each one (the clear loop),
then — when Vanna JSON model files are present — runs the single
information-schema training step, whose outcome (the plan items added, or
`none` when that step raised and was caught) is an environment parameter. -/

/-- One knowledge-base entry of the Vanna store. -/
structure TrainItem where
  id : Nat
  content : String
deriving DecidableEq

/-- Model of `vn.remove_training_data(id=item_id)`: drop the items carrying that id. -/
def remove_training_data (item_id : Nat) (kb : List TrainItem) :
    List TrainItem :=
  kb.filter (fun r => r.id != item_id)

/-- The clear loop of `train_on_dbt_models`: remove every id listed in the
current training data (each removal assumed to succeed, as the claim
stipulates). -/
def clear_training_data (kb : List TrainItem) : List TrainItem :=
  (kb.map (fun r => r.id)).foldl (fun acc i => remove_training_data i acc) kb

/-- Model of `train_on_dbt_models`: clear the knowledge base; return early when no
Vanna JSON model files exist; otherwise add the information-schema training
plan when that step succeeds (`plan = some items`), or nothing when it raised
and was caught (`plan = none`). -/
def train_on_dbt_models (modelsPresent : Bool)
    (plan : Option (List TrainItem)) (kb : List TrainItem) : List TrainItem :=
  if !modelsPresent then clear_training_data kb
  else
    match plan with
    | some items => clear_training_data kb ++ items
    | none => clear_training_data kb

theorem foldl_remove_eq_filter (ids : List Nat) (kb : List TrainItem) :
    ids.foldl (fun acc i => remove_training_data i acc) kb =
      kb.filter (fun r => !(ids.contains r.id)) := by
  induction ids generalizing kb with
  | nil => simp
  | cons i rest ih =>
    rw [List.foldl_cons]
    show rest.foldl (fun acc i => remove_training_data i acc)
        (remove_training_data i kb) = _
    rw [ih, remove_training_data, List.filter_filter]
    apply List.filter_congr
    intro r _
    by_cases h : r.id = i
    · simp [h]
    · simp [h]

/-- The clear loop empties the knowledge base: the id of every item is on the list
of ids to remove. -/
theorem clear_training_data_eq_nil (kb : List TrainItem) :
    clear_training_data kb = [] := by
  unfold clear_training_data
  rw [foldl_remove_eq_filter, List.filter_eq_nil_iff]
  intro r hr
  simp [List.mem_map]
  exact ⟨r, hr, rfl⟩

/-- C8: `train()` is a full wipe-then-rebuild, never additive. The clear loop
leaves an empty knowledge base before rebuilding, so — with each removal
succeeding and the same environment (model files present or not, same
information-schema plan outcome) — running `train` twice leaves the knowledge
base, and in particular its size, exactly as one run leaves it. -/
theorem train_idempotent_not_additive (modelsPresent : Bool)
    (plan : Option (List TrainItem)) (kb : List TrainItem) :
    clear_training_data kb = [] ∧
    train_on_dbt_models modelsPresent plan
        (train_on_dbt_models modelsPresent plan kb) =
      train_on_dbt_models modelsPresent plan kb ∧
    (train_on_dbt_models modelsPresent plan
        (train_on_dbt_models modelsPresent plan kb)).length =
      (train_on_dbt_models modelsPresent plan kb).length := by
  refine ⟨clear_training_data_eq_nil kb, ?_, ?_⟩ <;>
    cases plan <;>
      simp [train_on_dbt_models, clear_training_data_eq_nil]
